import Mathlib

/-!
Shallow embedding of the costGuardBE invoice anomaly detection core.

The embedding follows the source files:
* app/services/vendor_normalizer.py  (free-text vendor-name normalization)
* app/api/routes/invoices.py         (ingestion, detection, review, listing)
* app/schemas/invoice.py, app/schemas/anomaly.py, app/models/*.py

Modelling conventions:
* Python Decimal values are modelled as exact rationals; the source's
  28-significant-digit decimal context is treated as exact arithmetic.
* Database rows are Lean structures; a database is lists of rows plus a
  fresh-id counter.  SQL queries become list filters; ORDER BY becomes a
  stable insertion sort (ties keep store order, which SQL leaves open).
* An HTTP 404 is ApiError.notFound, an HTTP 400 is ApiError.invalidInput.
  A raised error aborts the transaction, so an error result carries no
  state: no row is persisted on a failed call.
* Python str.strip / str.lower are modelled on ASCII characters; the
  characters the normalizer distinguishes (a-z, 0-9, whitespace) are all
  ASCII, so the claims are unaffected.
* The square root in the statistical detector is irrational in general,
  so the executable model compares squares: for deviation >= 0 and
  variance >= 0, deviation >= 3 * sqrt variance iff
  deviation ^ 2 >= 9 * variance.  A bridging lemma relates the two forms.
  The numeric interpolations inside reason strings are not modelled; the
  fixed template text and the direction word ("higher" / "lower") are.
-/

namespace CostGuard

/-! ### Vendor name normalizer (app/services/vendor_normalizer.py) -/

/-- The character class `[a-z0-9]` of the normalizer's regexes. -/
def isAl (c : Char) : Bool :=
  (decide ('a' ≤ c) && decide (c ≤ 'z')) || (decide ('0' ≤ c) && decide (c ≤ '9'))

/-- ASCII whitespace, the characters Python str.strip removes. -/
def isWs (c : Char) : Bool :=
  decide (c = ' ') || decide (c = '\t') || decide (c = '\n') || decide (c = '\r') ||
    decide (c = '\x0b') || decide (c = '\x0c')

/-- ASCII lowercasing, Python str.lower on the relevant characters. -/
def toLow (c : Char) : Char :=
  if 'A' ≤ c ∧ c ≤ 'Z' then Char.ofNat (c.toNat + 32) else c

/-- Python str.strip: drop leading and trailing whitespace. -/
def stripWs (l : List Char) : List Char :=
  (((l.dropWhile isWs).reverse.dropWhile isWs).reverse)

/-- First step of re.sub(r"[^a-z0-9]+", " ", s): replace every
non-alphanumeric character by a space. -/
def squashNonAl (l : List Char) : List Char :=
  l.map (fun c => if isAl c then c else ' ')

/-- Second step of the same re.sub: collapse each run of spaces into one. -/
def collapseSp : List Char → List Char
  | [] => []
  | [c] => [c]
  | c :: d :: t =>
    if c = ' ' && d = ' ' then collapseSp (d :: t) else c :: collapseSp (d :: t)

/-- re.sub(r"[^a-z0-9]+", " ", s).strip(): the generic collapse branch of
the normalizer. -/
def collapseNonAl (l : List Char) : List Char :=
  stripWs (collapseSp (squashNonAl l))

def awsCanonical : List Char := ("amazon web services").data

def amazonCanonical : List Char := ("amazon").data

def azureCanonical : List Char := ("microsoft azure").data

def gcpCanonical : List Char := ("google cloud platform").data

/-- The _CANONICAL_NAMES alias table: membership test plus access. -/
def aliasLookup (k : List Char) : Option (List Char) :=
  if k = ("amazonwebservices").data then some awsCanonical
  else if k = ("aws").data then some awsCanonical
  else if k = ("amazonaws").data then some awsCanonical
  else if k = ("amazon").data then some amazonCanonical
  else if k = ("microsoftazure").data then some azureCanonical
  else if k = ("azure").data then some azureCanonical
  else if k = ("googlecloudplatform").data then some gcpCanonical
  else if k = ("gcp").data then some gcpCanonical
  else if k = ("googlecloud").data then some gcpCanonical
  else none

/-- normalize_vendor_name, character-list level: strip and lowercase; an
empty result returns empty; an alias-table hit on the compacted key
returns the canonical form; otherwise collapse non-alphanumeric runs to
single spaces and strip. -/
def normalizeChars (raw : List Char) : List Char :=
  let cleaned := (stripWs raw).map toLow
  if cleaned = [] then []
  else
    match aliasLookup (cleaned.filter isAl) with
    | some canon => canon
    | none => collapseNonAl cleaned

/-- app/services/vendor_normalizer.py normalize_vendor_name. -/
def normalize_vendor_name (raw : String) : String :=
  String.mk (normalizeChars raw.data)

/-- Trailing-whitespace strip; stripWs l is dropEndWs of the leading
strip, definitionally. -/
def dropEndWs (l : List Char) : List Char :=
  (l.reverse.dropWhile isWs).reverse

/-- Adjacent-character invariant of the collapse step: no two
consecutive spaces. -/
def noTwoSp (a b : Char) : Prop :=
  ¬(a = ' ' ∧ b = ' ')

/-! ### Enumerations (app/models/enums.py) -/

inductive AnomalyType where
  | PRICE_CREEP
  | DUPLICATE
  | ABNORMAL_TOTAL
  deriving DecidableEq

inductive AnomalySeverity where
  | LOW
  | MEDIUM
  | HIGH
  deriving DecidableEq

inductive AnomalyStatus where
  | UNREVIEWED
  | VALID
  | ISSUE
  deriving DecidableEq

/-! ### Rows (app/models) and database state -/

structure User where
  id : ℕ
  email : String
  business_name : String
  created_at : ℕ
  deriving DecidableEq

structure Vendor where
  id : ℕ
  user_id : ℕ
  name_normalized : String
  display_name : String
  created_at : ℕ
  deriving DecidableEq

structure Invoice where
  id : ℕ
  user_id : ℕ
  vendor_id : ℕ
  invoice_date : ℤ
  total_amount : ℚ
  currency : String
  source_file_url : Option String
  created_at : ℕ
  deriving DecidableEq

structure Anomaly where
  id : ℕ
  invoice_id : ℕ
  type : AnomalyType
  severity : AnomalySeverity
  status : AnomalyStatus
  reason_text : String
  note : Option String
  created_at : ℕ
  updated_at : ℕ
  deriving DecidableEq

/-- The transactional relational store: row lists plus a fresh-id source. -/
structure DB where
  users : List User
  vendors : List Vendor
  invoices : List Invoice
  anomalies : List Anomaly
  nextId : ℕ
  deriving DecidableEq

/-! ### Request payloads (app/schemas) -/

/-- InvoiceCreate after pydantic validation: total_amount, when present,
passed the gt=0 field constraint; currency passed length-3 validation and
was uppercased. -/
structure InvoiceCreate where
  user_id : ℕ
  vendor_id : Option ℕ
  vendor_name : Option String
  invoice_date : Option ℤ
  total_amount : Option ℚ
  currency : String
  source_file_url : Option String
  deriving DecidableEq

/-- InvoiceExtractionResult: best-effort fallback metadata from an
uploaded file; any field may be missing, and an extracted amount is not
range-checked anywhere. -/
structure InvoiceExtractionResult where
  vendor_name : Option String
  invoice_date : Option ℤ
  total_amount : Option ℚ
  deriving DecidableEq

/-- AnomalyUpdate with pydantic exclude_unset tracking: the outer option
is none when the note field was omitted from the request, some none for
an explicit null note, some (some s) for an explicit string. -/
structure AnomalyUpdate where
  status : AnomalyStatus
  note : Option (Option String)
  deriving DecidableEq

/-- Raised HTTP errors on the modelled paths: 404 and 400. -/
inductive ApiError where
  | notFound
  | invalidInput
  deriving DecidableEq

/-! ### Anomaly detection (create_invoice, lines 225-311) -/

def dupReasonText : String :=
  "Potential duplicate invoice: matches vendor, date, and total amount."

def highReasonText : String :=
  "Invoice total exceeds 150% of recent vendor average."

def statReason (direction : String) : String :=
  "Invoice total is " ++ direction ++ " than normal for this vendor."

/-- A detector finding before persistence. -/
structure AnomalyDraft where
  type : AnomalyType
  severity : AnomalySeverity
  status : AnomalyStatus
  reasonText : String
  deriving DecidableEq

/-- Duplicate detector output: one DUPLICATE/MEDIUM draft when the
pre-insert duplicate query matched. -/
def dupDraft (dupFound : Bool) : List AnomalyDraft :=
  if dupFound then
    [{ type := .DUPLICATE, severity := .MEDIUM, status := .UNREVIEWED,
       reasonText := dupReasonText }]
  else []

/-- average_total: sum(recent_totals) / len(recent_totals) when the
history is non-empty, None otherwise. -/
def averageTotal (recentTotals : List ℚ) : Option ℚ :=
  if recentTotals = [] then none
  else some (recentTotals.sum / (recentTotals.length : ℚ))

/-- The high-threshold comparison total_amount_value >= average * 1.5. -/
def highThresholdFires (recentTotals : List ℚ) (newTotal : ℚ) : Bool :=
  match averageTotal recentTotals with
  | none => false
  | some avg => decide (newTotal ≥ avg * (3 / 2 : ℚ))

/-- High-threshold detector output. -/
def highDraft (recentTotals : List ℚ) (newTotal : ℚ) : List AnomalyDraft :=
  if highThresholdFires recentTotals newTotal then
    [{ type := .ABNORMAL_TOTAL, severity := .HIGH, status := .UNREVIEWED,
       reasonText := highReasonText }]
  else []

/-- Population variance: sum((amount - average) ** 2) / len(history). -/
def popVariance (recentTotals : List ℚ) (avg : ℚ) : ℚ :=
  (recentTotals.map (fun amount => (amount - avg) ^ 2)).sum / (recentTotals.length : ℚ)

/-- Statistical outlier test.  The source computes std_dev = sqrt variance
(0 when variance = 0) and tests std_dev > 0 and deviation >= std_dev * 3
and not abnormal_total_detected; over nonnegative values that is
variance > 0 and deviation ^ 2 >= 9 * variance (see statCond_iff_sqrt),
and abnormal_total_detected is set exactly when the high-threshold
detector fired. -/
def statFires (recentTotals : List ℚ) (newTotal : ℚ) : Bool :=
  match averageTotal recentTotals with
  | none => false
  | some avg =>
    if 5 ≤ recentTotals.length then
      let variance := popVariance recentTotals avg
      if 0 < variance then
        let deviation := |newTotal - avg|
        decide (deviation ^ 2 ≥ 9 * variance) && !(highThresholdFires recentTotals newTotal)
      else false
    else false

/-- Statistical outlier detector output, including the direction word of
its reason text ("higher" if new total > average else "lower"). -/
def statDraft (recentTotals : List ℚ) (newTotal : ℚ) : List AnomalyDraft :=
  match averageTotal recentTotals with
  | none => []
  | some avg =>
    if statFires recentTotals newTotal then
      [{ type := .ABNORMAL_TOTAL, severity := .HIGH, status := .UNREVIEWED,
         reasonText := statReason (if newTotal > avg then "higher" else "lower") }]
    else []

/-- The three detectors run in source order against one new invoice. -/
def detectAnomalies (dupFound : Bool) (recentTotals : List ℚ) (newTotal : ℚ) :
    List AnomalyDraft :=
  dupDraft dupFound ++ highDraft recentTotals newTotal ++ statDraft recentTotals newTotal

/-! ### Ingestion (create_invoice, lines 173-315) -/

/-- Python `a or b` on optional strings: the empty string is falsy. -/
def pyOrStr (a b : Option String) : Option String :=
  match a with
  | some s => if s = "" then b else some s
  | none => b

/-- Python `a or b` where a truthy value is any present one (dates, and
payload amounts already validated positive). -/
def pyOr {α : Type} (a b : Option α) : Option α :=
  match a with
  | some x => some x
  | none => b

/-- Vendor resolution: an explicit vendor id is looked up directly (404
when absent, no fallback); otherwise a truthy candidate name is
normalized and matched against (user_id, name_normalized); with neither,
the call fails 400. -/
def resolveVendor (db : DB) (userId : ℕ) (vendorId : Option ℕ)
    (candidate : Option String) : Except ApiError Vendor :=
  match vendorId with
  | some vid =>
    match db.vendors.find? (fun v => v.id = vid) with
    | none => .error .notFound
    | some v => .ok v
  | none =>
    match candidate with
    | some s =>
      if s = "" then .error .invalidInput
      else
        match db.vendors.find? (fun v =>
            v.user_id = userId ∧ v.name_normalized = normalize_vendor_name s) with
        | none => .error .notFound
        | some v => .ok v
    | none => .error .invalidInput

/-- The pre-insert duplicate query: any persisted invoice with the same
vendor, same invoice date and same total amount (currency not compared). -/
def duplicateExists (invoices : List Invoice) (vendorId : ℕ) (d : ℤ) (t : ℚ) : Bool :=
  invoices.any (fun i => decide (i.vendor_id = vendorId) && decide (i.invoice_date = d)
    && decide (i.total_amount = t))

/-- Descending (invoice_date) order used by the history query; ties keep
store order, which the SQL leaves unspecified. -/
def histOrder (a b : Invoice) : Prop :=
  b.invoice_date < a.invoice_date ∨ b.invoice_date = a.invoice_date

instance : DecidableRel histOrder := fun a b => by
  unfold histOrder; infer_instance

/-- recent_totals: totals of the vendor's invoices other than the new one
(the new invoice is not yet in the store here), most recent 25 by
invoice date descending. -/
def vendorHistoryTotals (invoices : List Invoice) (vendorId : ℕ) : List ℚ :=
  (((invoices.filter (fun i => decide (i.vendor_id = vendorId))).insertionSort
    histOrder).map (fun i => i.total_amount)).take 25

/-- Persist the detector drafts as anomaly rows on the new invoice, with
server-side timestamps and fresh ids. -/
def persistAnomalies (invId now : ℕ) : ℕ → List AnomalyDraft → List Anomaly
  | _, [] => []
  | nid, d :: ds =>
    { id := nid, invoice_id := invId, type := d.type, severity := d.severity,
      status := d.status, reason_text := d.reasonText, note := none,
      created_at := now, updated_at := now } :: persistAnomalies invId now (nid + 1) ds

/-- A successful ingestion: the committed store, the new invoice row, and
the anomaly rows persisted with it. -/
structure CreateResult where
  db : DB
  invoice : Invoice
  anomalies : List Anomaly
  deriving DecidableEq

/-- The write phase of create_invoice after all validation passed:
duplicate query, insert invoice, run detectors, insert anomaly rows,
commit. -/
def buildResult (db : DB) (payload : InvoiceCreate) (vendor : Vendor)
    (d : ℤ) (t : ℚ) (now : ℕ) : CreateResult :=
  let dupFound := duplicateExists db.invoices vendor.id d t
  let inv : Invoice :=
    { id := db.nextId, user_id := payload.user_id, vendor_id := vendor.id,
      invoice_date := d, total_amount := t, currency := payload.currency,
      source_file_url := payload.source_file_url, created_at := now }
  let recentTotals := vendorHistoryTotals db.invoices vendor.id
  let drafts := detectAnomalies dupFound recentTotals t
  let rows := persistAnomalies inv.id now (db.nextId + 1) drafts
  let committed : DB :=
    { db with invoices := db.invoices ++ [inv],
              anomalies := db.anomalies ++ rows,
              nextId := db.nextId + 1 + drafts.length }
  { db := committed, invoice := inv, anomalies := rows }

/-- create_invoice after request parsing: resolve the vendor (explicit id
first, else merged candidate name), check the user exists, check tenant
ownership, merge fallback date and amount (caller value wins), fail 400
when either is still missing, then run the write phase.  Note the source
never re-checks positivity of an extractor-provided amount. -/
def create_invoice (db : DB) (payload : InvoiceCreate)
    (extraction : InvoiceExtractionResult) (now : ℕ) : Except ApiError CreateResult :=
  match resolveVendor db payload.user_id payload.vendor_id
      (pyOrStr payload.vendor_name extraction.vendor_name) with
  | .error e => .error e
  | .ok vendor =>
    match db.users.find? (fun u => u.id = payload.user_id) with
    | none => .error .notFound
    | some _ =>
      if vendor.user_id ≠ payload.user_id then .error .invalidInput
      else
        match pyOr payload.invoice_date extraction.invoice_date with
        | none => .error .invalidInput
        | some d =>
          match pyOr payload.total_amount extraction.total_amount with
          | none => .error .invalidInput
          | some t => .ok (buildResult db payload vendor d t now)

/-! ### Anomaly review (update_anomaly_status, lines 55-81) -/

/-- The ownership join: the anomaly row joined to its invoice, selected
only when the invoice's owning user is the requesting user.  The anomaly
row itself carries no user field. -/
def findOwnedAnomaly (db : DB) (anomalyId userId : ℕ) : Option Anomaly :=
  db.anomalies.find? (fun a => decide (a.id = anomalyId) &&
    db.invoices.any (fun i => decide (i.id = a.invoice_id) && decide (i.user_id = userId)))

/-- update_anomaly_status: 404 when the join finds nothing; otherwise
assign the status, overwrite the note only when the note field was
present in the request, and commit.  The ORM emits an UPDATE at flush
only when some assignment produced a net change (assigning the stored
value again is not a change), and only such an UPDATE triggers the
onupdate refresh of updated_at; a no-op review leaves the row, including
updated_at, untouched. -/
def update_anomaly_status (db : DB) (anomalyId userId : ℕ) (payload : AnomalyUpdate)
    (now : ℕ) : Except ApiError (DB × Anomaly) :=
  match findOwnedAnomaly db anomalyId userId with
  | none => .error .notFound
  | some a =>
    let newNote : Option String :=
      match payload.note with
      | some n => n
      | none => a.note
    let a' : Anomaly :=
      if payload.status ≠ a.status ∨ newNote ≠ a.note then
        { a with status := payload.status, note := newNote, updated_at := now }
      else a
    .ok ({ db with anomalies := db.anomalies.map (fun x => if x.id = a.id then a' else x) }, a')

/-! ### Flagged-invoice listing (list_flagged_invoices, lines 84-123) -/

/-- severity_order: HIGH before MEDIUM before LOW. -/
def severityOrder : AnomalySeverity → ℕ
  | .HIGH => 0
  | .MEDIUM => 1
  | .LOW => 2

/-- Sort key of each invoice's anomaly list: (severity_order, created_at). -/
def anomalyLe (a b : Anomaly) : Prop :=
  severityOrder a.severity < severityOrder b.severity ∨
    (severityOrder a.severity = severityOrder b.severity ∧ a.created_at ≤ b.created_at)

instance : DecidableRel anomalyLe := fun a b => by
  unfold anomalyLe; infer_instance

/-- ORDER BY invoice_date DESC, created_at DESC. -/
def invoiceOrder (a b : Invoice) : Prop :=
  b.invoice_date < a.invoice_date ∨
    (b.invoice_date = a.invoice_date ∧ b.created_at ≤ a.created_at)

instance : DecidableRel invoiceOrder := fun a b => by
  unfold invoiceOrder; infer_instance

instance : IsTotal Anomaly anomalyLe :=
  ⟨by intro a b; unfold anomalyLe; omega⟩

instance : IsTrans Anomaly anomalyLe :=
  ⟨by intro a b c; unfold anomalyLe; omega⟩

instance : IsTotal Invoice invoiceOrder :=
  ⟨by intro a b; unfold invoiceOrder; omega⟩

instance : IsTrans Invoice invoiceOrder :=
  ⟨by intro a b c; unfold invoiceOrder; omega⟩

/-- list_flagged_invoices: `status or UNREVIEWED` (every enum member is a
truthy non-empty string, so this is none-coalescing), select the user's
invoices joined to an anomaly in that status (deduplicated), order by
(invoice_date desc, created_at desc), truncate, then load each invoice's
full anomaly collection sorted by (severity order, created_at). -/
def list_flagged_invoices (db : DB) (userId : ℕ) (status : Option AnomalyStatus)
    (limit : ℕ) : List (Invoice × List Anomaly) :=
  let applied := status.getD .UNREVIEWED
  let selected := db.invoices.filter (fun i => decide (i.user_id = userId) &&
    db.anomalies.any (fun a => decide (a.invoice_id = i.id) && decide (a.status = applied)))
  let ordered := (selected.insertionSort invoiceOrder).take limit
  ordered.map (fun i =>
    (i, (db.anomalies.filter (fun a => decide (a.invoice_id = i.id))).insertionSort anomalyLe))

/-! ### Concrete scenario data used by witnesses and counterexamples -/

/-- A user owning the scenario's rows. -/
def scUser : User :=
  { id := 7, email := "owner@example.com", business_name := "Test Biz", created_at := 0 }

/-- A second user, not owning anything in the scenario. -/
def scOther : User :=
  { id := 8, email := "other@example.com", business_name := "Other Biz", created_at := 0 }

/-- The scenario vendor, owned by scUser. -/
def scVendor : Vendor :=
  { id := 1, user_id := 7, name_normalized := "acme corp", display_name := "ACME Corp",
    created_at := 0 }

/-- Empty-store scenario state: one user, one vendor, no invoices. -/
def scDb : DB :=
  { users := [scUser, scOther], vendors := [scVendor], invoices := [], anomalies := [],
    nextId := 10 }

/-- A fully explicit valid payload against scVendor. -/
def scPayload : InvoiceCreate :=
  { user_id := 7, vendor_id := some 1, vendor_name := none, invoice_date := some 100,
    total_amount := some 150, currency := "USD", source_file_url := none }

/-- Payload with no invoice date. -/
def scPayloadNoDate : InvoiceCreate :=
  { scPayload with invoice_date := none }

/-- Payload with no total amount. -/
def scPayloadNoTotal : InvoiceCreate :=
  { scPayload with total_amount := none }

/-- Payload with an absent vendor id (no vendor 99 exists) and a name
that would match scVendor if name matching were attempted. -/
def scPayloadBadVendor : InvoiceCreate :=
  { scPayload with vendor_id := some 99, vendor_name := some ("ACME Corp") }

/-- Payload with no vendor information at all. -/
def scPayloadNoVendor : InvoiceCreate :=
  { scPayload with vendor_id := none, vendor_name := none }

/-- Extraction result with nothing extracted. -/
def scExtEmpty : InvoiceExtractionResult :=
  { vendor_name := none, invoice_date := none, total_amount := none }

/-- Extraction result carrying a non-positive fallback total. -/
def scExtNegTotal : InvoiceExtractionResult :=
  { vendor_name := none, invoice_date := none, total_amount := some (-5) }

/-- Extraction result with an empty (falsy) vendor name. -/
def scExtEmptyName : InvoiceExtractionResult :=
  { vendor_name := some "", invoice_date := none, total_amount := none }

/-- Review-scenario invoice owned by scUser. -/
def scInvoice : Invoice :=
  { id := 20, user_id := 7, vendor_id := 1, invoice_date := 100, total_amount := 150,
    currency := "USD", source_file_url := none, created_at := 3 }

/-- A second invoice for the listing scenario, older date. -/
def scInvoice2 : Invoice :=
  { id := 21, user_id := 7, vendor_id := 1, invoice_date := 90, total_amount := 60,
    currency := "USD", source_file_url := none, created_at := 4 }

/-- An unreviewed anomaly on scInvoice. -/
def scAnomaly : Anomaly :=
  { id := 30, invoice_id := 20, type := .DUPLICATE, severity := .MEDIUM,
    status := .UNREVIEWED, reason_text := dupReasonText, note := some ("old note"),
    created_at := 5, updated_at := 5 }

/-- A VALID-status anomaly on scInvoice (same invoice, different status). -/
def scAnomalyValid : Anomaly :=
  { id := 31, invoice_id := 20, type := .ABNORMAL_TOTAL, severity := .HIGH,
    status := .VALID, reason_text := highReasonText, note := none,
    created_at := 6, updated_at := 6 }

/-- An unreviewed anomaly on scInvoice2. -/
def scAnomaly2 : Anomaly :=
  { id := 32, invoice_id := 21, type := .ABNORMAL_TOTAL, severity := .HIGH,
    status := .UNREVIEWED, reason_text := highReasonText, note := none,
    created_at := 7, updated_at := 7 }

/-- Review/listing scenario state. -/
def scDb2 : DB :=
  { users := [scUser, scOther], vendors := [scVendor],
    invoices := [scInvoice, scInvoice2],
    anomalies := [scAnomaly, scAnomalyValid, scAnomaly2], nextId := 40 }

/-- Review payload: new status, note field omitted from the request. -/
def scUpdNoNote : AnomalyUpdate :=
  { status := .VALID, note := none }

/-- Review payload: new status with an explicit null note (clears it). -/
def scUpdClear : AnomalyUpdate :=
  { status := .ISSUE, note := some none }

/-! ## Lemmas on the normalizer -/

theorem isWs_isAl {c : Char} (h : isWs c = true) : isAl c = false := by
  unfold isWs at h
  simp only [Bool.or_eq_true, decide_eq_true_eq] at h
  rcases h with ((((h | h) | h) | h) | h) | h <;> subst h <;> decide

theorem al_not_ws {c : Char} (h : isAl c = true) : isWs c = false := by
  cases hw : isWs c with
  | false => rfl
  | true => rw [isWs_isAl hw] at h; cases h

theorem al_not_space {c : Char} (h : isAl c = true) : c ≠ ' ' := by
  intro he; subst he; exact absurd h (by decide)

theorem toLow_fix {c : Char} (h : isAl c = true ∨ c = ' ') : toLow c = c := by
  unfold toLow
  rw [if_neg]
  rintro ⟨h1, h2⟩
  rcases h with h | rfl
  · unfold isAl at h
    simp only [Bool.or_eq_true, Bool.and_eq_true, decide_eq_true_eq] at h
    rcases h with ⟨ha, _⟩ | ⟨_, hb⟩
    · exact absurd (le_trans ha h2) (by decide)
    · exact absurd (le_trans h1 hb) (by decide)
  · exact absurd h1 (by decide)

theorem map_fix {α : Type} {f : α → α} {l : List α} (h : ∀ c ∈ l, f c = c) :
    l.map f = l := by
  induction l with
  | nil => rfl
  | cons a t ih =>
    simp only [List.map_cons, h a (List.mem_cons_self a t)]
    rw [ih (fun c hc => h c (List.mem_cons_of_mem a hc))]

theorem mem_squashNonAl {c : Char} {l : List Char} (h : c ∈ squashNonAl l) :
    isAl c = true ∨ c = ' ' := by
  unfold squashNonAl at h
  rcases List.mem_map.mp h with ⟨a, _, ha⟩
  by_cases hal : isAl a = true
  · left; rw [if_pos hal] at ha; rw [← ha]; exact hal
  · right; rw [if_neg hal] at ha; exact ha.symm

theorem mem_collapseSp {c : Char} : ∀ {l : List Char}, c ∈ collapseSp l → c ∈ l := by
  intro l
  induction l with
  | nil => intro h; simp [collapseSp] at h
  | cons a t ih =>
    cases t with
    | nil => intro h; simpa [collapseSp] using h
    | cons b t' =>
      intro h
      rw [collapseSp] at h
      split at h
      · exact List.mem_cons_of_mem a (ih h)
      · rcases List.mem_cons.mp h with rfl | h'
        · exact List.mem_cons_self c _
        · exact List.mem_cons_of_mem a (ih h')

theorem mem_stripWs {c : Char} {l : List Char} (h : c ∈ stripWs l) : c ∈ l := by
  unfold stripWs at h
  rw [List.mem_reverse] at h
  have h2 := (List.dropWhile_suffix isWs).sublist.subset h
  rw [List.mem_reverse] at h2
  exact (List.dropWhile_suffix isWs).sublist.subset h2

theorem mem_collapseNonAl {c : Char} {l : List Char} (h : c ∈ collapseNonAl l) :
    isAl c = true ∨ c = ' ' := by
  unfold collapseNonAl at h
  exact mem_squashNonAl (mem_collapseSp (mem_stripWs h))

theorem collapseSp_head_ne {d : Char} (t : List Char) (hd : d ≠ ' ') :
    (collapseSp (d :: t)).head? = some d := by
  cases t with
  | nil => rfl
  | cons e t' =>
    rw [collapseSp, if_neg]
    · rfl
    · simp [hd]

theorem chain'_collapseSp (l : List Char) : List.Chain' noTwoSp (collapseSp l) := by
  induction l with
  | nil => simp [collapseSp]
  | cons a t ih =>
    cases t with
    | nil => simp [collapseSp]
    | cons b t' =>
      rw [collapseSp]
      split
      · exact ih
      · rename_i hguard
        rw [List.chain'_cons']
        refine ⟨?_, ih⟩
        intro y hy
        rintro ⟨rfl, rfl⟩
        have hb : b ≠ ' ' := by
          intro hb'
          exact hguard (by simp [hb'])
        rw [collapseSp_head_ne t' hb] at hy
        exact hb (Option.some.inj hy)

theorem dropWhile_head_false {α : Type} {p : α → Bool} :
    ∀ {l : List α} {c : α}, (List.dropWhile p l).head? = some c → p c = false := by
  intro l
  induction l with
  | nil => intro c h; simp [List.dropWhile] at h
  | cons a t ih =>
    intro c h
    rw [List.dropWhile_cons] at h
    split at h
    · exact ih h
    · rename_i hpa
      rw [List.head?_cons] at h
      cases Option.some.inj h
      exact Bool.eq_false_iff.mpr hpa

theorem dropWhile_eq_self_of {α : Type} {p : α → Bool} {l : List α}
    (h : ∀ c, l.head? = some c → p c = false) : List.dropWhile p l = l := by
  cases l with
  | nil => rfl
  | cons a t => rw [List.dropWhile_cons, if_neg (by simp [h a rfl])]

theorem dropWhile_idem {α : Type} {p : α → Bool} (l : List α) :
    List.dropWhile p (List.dropWhile p l) = List.dropWhile p l :=
  dropWhile_eq_self_of (fun _ h => dropWhile_head_false h)

theorem dropEndWs_idem (l : List Char) : dropEndWs (dropEndWs l) = dropEndWs l := by
  unfold dropEndWs
  rw [List.reverse_reverse, dropWhile_idem]

theorem dropEndWs_head {l : List Char} {c : Char} (h : (dropEndWs l).head? = some c) :
    l.head? = some c := by
  unfold dropEndWs at h
  obtain ⟨t, ht⟩ := List.dropWhile_suffix (l := l.reverse) isWs
  have hl : l = (l.reverse.dropWhile isWs).reverse ++ t.reverse := by
    rw [← List.reverse_append, ht, List.reverse_reverse]
  rw [hl, List.head?_append, h]
  rfl

theorem stripWs_eq (l : List Char) : stripWs l = dropEndWs (l.dropWhile isWs) := rfl

theorem stripWs_idem (l : List Char) : stripWs (stripWs l) = stripWs l := by
  rw [stripWs_eq, stripWs_eq]
  have h1 : List.dropWhile isWs (dropEndWs (List.dropWhile isWs l)) =
      dropEndWs (List.dropWhile isWs l) := by
    apply dropWhile_eq_self_of
    intro c hc
    exact dropWhile_head_false (dropEndWs_head hc)
  rw [h1, dropEndWs_idem]

theorem chain'_dropWhileWs {R : Char → Char → Prop} {l : List Char}
    (h : List.Chain' R l) : List.Chain' R (l.dropWhile isWs) := by
  obtain ⟨t, ht⟩ := List.dropWhile_suffix (l := l) isWs
  rw [← ht] at h
  exact h.right_of_append

theorem chain'_stripWs {R : Char → Char → Prop} {l : List Char}
    (h : List.Chain' R l) : List.Chain' R (stripWs l) := by
  unfold stripWs
  apply List.chain'_reverse.mpr
  apply chain'_dropWhileWs
  apply List.chain'_reverse.mpr
  exact chain'_dropWhileWs h

theorem filter_dropWhileWs (l : List Char) :
    (l.dropWhile isWs).filter isAl = l.filter isAl := by
  induction l with
  | nil => rfl
  | cons a t ih =>
    rw [List.dropWhile_cons]
    split
    · rename_i hws
      rw [ih, List.filter_cons, if_neg (by simp [isWs_isAl hws])]
    · rfl

theorem filter_stripWs (l : List Char) : (stripWs l).filter isAl = l.filter isAl := by
  unfold stripWs
  rw [List.filter_reverse, filter_dropWhileWs, List.filter_reverse,
    List.reverse_reverse, filter_dropWhileWs]

theorem filter_collapseSp (l : List Char) :
    (collapseSp l).filter isAl = l.filter isAl := by
  induction l with
  | nil => rfl
  | cons a t ih =>
    cases t with
    | nil => rfl
    | cons b t' =>
      rw [collapseSp]
      split
      · rename_i hg
        simp only [Bool.and_eq_true, decide_eq_true_eq] at hg
        rcases hg with ⟨rfl, rfl⟩
        rw [ih]
        simp [show isAl ' ' = false by decide]
      · simp only [List.filter_cons, ih]

theorem filter_squashNonAl (l : List Char) :
    (squashNonAl l).filter isAl = l.filter isAl := by
  induction l with
  | nil => rfl
  | cons a t ih =>
    unfold squashNonAl at ih ⊢
    rw [List.map_cons]
    by_cases h : isAl a = true
    · rw [if_pos h]
      simp only [List.filter_cons, h, if_pos, ih]
    · rw [if_neg h]
      rw [List.filter_cons, List.filter_cons, if_neg (by decide), if_neg (by simp [h]), ih]

theorem filter_collapseNonAl (l : List Char) :
    (collapseNonAl l).filter isAl = l.filter isAl := by
  unfold collapseNonAl
  rw [filter_stripWs, filter_collapseSp, filter_squashNonAl]

theorem squashNonAl_fix {l : List Char} (h : ∀ c ∈ l, isAl c = true ∨ c = ' ') :
    squashNonAl l = l := by
  unfold squashNonAl
  apply map_fix
  intro c hc
  rcases h c hc with hal | rfl
  · rw [if_pos hal]
  · rw [if_neg (by decide)]

theorem collapseSp_fix : ∀ {l : List Char}, List.Chain' noTwoSp l → collapseSp l = l := by
  intro l
  induction l with
  | nil => intro _; rfl
  | cons a t ih =>
    cases t with
    | nil => intro _; rfl
    | cons b t' =>
      intro h
      rw [List.chain'_cons] at h
      have hguard : ¬((decide (a = ' ') && decide (b = ' ')) = true) := by
        simp only [Bool.and_eq_true, decide_eq_true_eq]
        exact h.1
      rw [collapseSp, if_neg hguard, ih h.2]

theorem collapseNonAl_fix (l : List Char) :
    collapseNonAl (collapseNonAl l) = collapseNonAl l := by
  have hmem : ∀ c ∈ collapseNonAl l, isAl c = true ∨ c = ' ' :=
    fun _ hc => mem_collapseNonAl hc
  have h1 : squashNonAl (collapseNonAl l) = collapseNonAl l := squashNonAl_fix hmem
  have h2 : collapseSp (collapseNonAl l) = collapseNonAl l :=
    collapseSp_fix (chain'_stripWs (chain'_collapseSp _))
  have h3 : stripWs (collapseNonAl l) = collapseNonAl l := by
    unfold collapseNonAl
    exact stripWs_idem _
  show stripWs (collapseSp (squashNonAl (collapseNonAl l))) = collapseNonAl l
  rw [h1, h2, h3]

theorem aliasLookup_mem {k v : List Char} (h : aliasLookup k = some v) :
    v = awsCanonical ∨ v = amazonCanonical ∨ v = azureCanonical ∨ v = gcpCanonical := by
  unfold aliasLookup at h
  repeat' split at h
  all_goals simp_all

theorem normalizeChars_empty : normalizeChars [] = [] := rfl

theorem normalizeChars_aws : normalizeChars awsCanonical = awsCanonical := by decide

theorem normalizeChars_amazon : normalizeChars amazonCanonical = amazonCanonical := by decide

theorem normalizeChars_azure : normalizeChars azureCanonical = azureCanonical := by decide

theorem normalizeChars_gcp : normalizeChars gcpCanonical = gcpCanonical := by decide

theorem normalizeChars_idem (l : List Char) :
    normalizeChars (normalizeChars l) = normalizeChars l := by
  by_cases h0 : ((stripWs l).map toLow) = []
  · have h1 : normalizeChars l = [] := by
      simp [normalizeChars, h0]
    rw [h1, normalizeChars_empty]
  · cases halias : aliasLookup (((stripWs l).map toLow).filter isAl) with
    | some canon =>
      have h1 : normalizeChars l = canon := by
        simp [normalizeChars, h0, halias]
      rw [h1]
      rcases aliasLookup_mem halias with rfl | rfl | rfl | rfl
      · exact normalizeChars_aws
      · exact normalizeChars_amazon
      · exact normalizeChars_azure
      · exact normalizeChars_gcp
    | none =>
      have h1 : normalizeChars l = collapseNonAl ((stripWs l).map toLow) := by
        simp [normalizeChars, h0, halias]
      rw [h1]
      by_cases hy : collapseNonAl ((stripWs l).map toLow) = []
      · rw [hy, normalizeChars_empty]
      · have hs : stripWs (collapseNonAl ((stripWs l).map toLow)) =
            collapseNonAl ((stripWs l).map toLow) := by
          unfold collapseNonAl
          exact stripWs_idem _
        have hc : (stripWs (collapseNonAl ((stripWs l).map toLow))).map toLow =
            collapseNonAl ((stripWs l).map toLow) := by
          rw [hs]
          exact map_fix (fun c hcc => toLow_fix (mem_collapseNonAl hcc))
        have hkey : (collapseNonAl ((stripWs l).map toLow)).filter isAl =
            ((stripWs l).map toLow).filter isAl := filter_collapseNonAl _
        unfold normalizeChars
        simp only [hc, hkey, halias]
        rw [if_neg hy]
        exact collapseNonAl_fix _

/-- Claim C8: for every input string, normalization is idempotent:
normalize(normalize(x)) = normalize(x), where normalize trims and
lowercases, returns the canonical alias-table value when the stripped
alphanumeric key matches, and otherwise collapses runs of
non-alphanumeric characters into single spaces and trims; in particular
the alias inputs "AWS", "amazonaws" and "Amazon Web Services" all
normalize to "amazon web services". -/
theorem C8_normalize_idempotent :
    (∀ s : String, normalize_vendor_name (normalize_vendor_name s) =
      normalize_vendor_name s) ∧
    normalize_vendor_name ("AWS") = ("amazon web services") ∧
    normalize_vendor_name ("amazonaws") = ("amazon web services") ∧
    normalize_vendor_name ("Amazon Web Services") = ("amazon web services") := by
  refine ⟨?_, by decide, by decide, by decide⟩
  intro s
  unfold normalize_vendor_name
  exact congrArg String.mk (normalizeChars_idem s.data)

/-! ## Lemmas on the detection engine -/

theorem averageTotal_of_ne {hist : List ℚ} (h : hist ≠ []) :
    averageTotal hist = some (hist.sum / (hist.length : ℚ)) := by
  unfold averageTotal
  rw [if_neg h]

theorem popVariance_nonneg (hist : List ℚ) (avg : ℚ) : 0 ≤ popVariance hist avg := by
  unfold popVariance
  apply div_nonneg
  · apply List.sum_nonneg
    intro x hx
    rcases List.mem_map.mp hx with ⟨a, _, ha⟩
    rw [← ha]
    exact sq_nonneg _
  · exact Nat.cast_nonneg _

theorem highFires_iff {hist : List ℚ} {t : ℚ} (h : hist ≠ []) :
    highThresholdFires hist t = true ↔
      t ≥ (hist.sum / (hist.length : ℚ)) * (3 / 2 : ℚ) := by
  unfold highThresholdFires
  rw [averageTotal_of_ne h]
  simp

theorem highFires_empty (t : ℚ) : highThresholdFires [] t = false := rfl

theorem highDraft_ne_iff {hist : List ℚ} (t : ℚ) :
    highDraft hist t ≠ [] ↔ highThresholdFires hist t = true := by
  unfold highDraft
  by_cases hf : highThresholdFires hist t = true
  · simp [hf]
  · simp [hf]

theorem highDraft_mem {hist : List ℚ} {t : ℚ} {a : AnomalyDraft}
    (ha : a ∈ highDraft hist t) :
    a.type = AnomalyType.ABNORMAL_TOTAL ∧ a.severity = AnomalySeverity.HIGH ∧
      a.status = AnomalyStatus.UNREVIEWED ∧ a.reasonText = highReasonText := by
  unfold highDraft at ha
  split at ha
  · rcases List.mem_singleton.mp ha with rfl
    exact ⟨rfl, rfl, rfl, rfl⟩
  · cases ha

theorem statFires_iff {hist : List ℚ} {t : ℚ} (h : hist ≠ []) (h5 : 5 ≤ hist.length) :
    statFires hist t = true ↔
      (0 < popVariance hist (hist.sum / (hist.length : ℚ)) ∧
        9 * popVariance hist (hist.sum / (hist.length : ℚ)) ≤
          |t - hist.sum / (hist.length : ℚ)| ^ 2 ∧
        highThresholdFires hist t = false) := by
  unfold statFires
  rw [averageTotal_of_ne h]
  simp only [h5, if_true]
  by_cases hv : 0 < popVariance hist (hist.sum / (hist.length : ℚ))
  · rw [if_pos hv]
    simp [hv, Bool.and_eq_true, decide_eq_true_eq, Bool.not_eq_true', ge_iff_le, and_comm]
  · rw [if_neg hv]
    simp [hv]

theorem statFires_empty (t : ℚ) : statFires [] t = false := rfl

theorem statFires_of_high {hist : List ℚ} {t : ℚ}
    (hh : highThresholdFires hist t = true) : statFires hist t = false := by
  unfold statFires
  cases havg : averageTotal hist with
  | none => rfl
  | some avg =>
    simp only
    split
    · split
      · rw [hh]
        simp
      · rfl
    · rfl

theorem statDraft_ne_iff (hist : List ℚ) (t : ℚ) :
    statDraft hist t ≠ [] ↔ statFires hist t = true := by
  unfold statDraft
  cases havg : averageTotal hist with
  | none =>
    have hf : statFires hist t = false := by
      unfold statFires
      rw [havg]
    simp [hf]
  | some avg =>
    by_cases hf : statFires hist t = true
    · simp [hf]
    · simp [hf]

theorem statDraft_mem {hist : List ℚ} {t : ℚ} {a : AnomalyDraft} (h : hist ≠ [])
    (ha : a ∈ statDraft hist t) :
    a.type = AnomalyType.ABNORMAL_TOTAL ∧ a.severity = AnomalySeverity.HIGH ∧
      a.status = AnomalyStatus.UNREVIEWED ∧
      a.reasonText = statReason
        (if t > hist.sum / (hist.length : ℚ) then "higher" else "lower") := by
  unfold statDraft at ha
  rw [averageTotal_of_ne h] at ha
  simp only at ha
  split at ha
  · rcases List.mem_singleton.mp ha with rfl
    exact ⟨rfl, rfl, rfl, rfl⟩
  · cases ha

theorem dupDraft_mem {dup : Bool} {a : AnomalyDraft} (ha : a ∈ dupDraft dup) :
    a.type = AnomalyType.DUPLICATE ∧ a.severity = AnomalySeverity.MEDIUM ∧
      a.status = AnomalyStatus.UNREVIEWED ∧ a.reasonText = dupReasonText := by
  unfold dupDraft at ha
  split at ha
  · rcases List.mem_singleton.mp ha with rfl
    exact ⟨rfl, rfl, rfl, rfl⟩
  · cases ha

theorem dupDraft_ne_iff (dup : Bool) : dupDraft dup ≠ [] ↔ dup = true := by
  cases dup <;> simp [dupDraft]

/-- At most one ABNORMAL_TOTAL draft per detection run: the statistical
detector is suppressed whenever the high-threshold detector fired. -/
theorem abnormal_count_le_one (dup : Bool) (hist : List ℚ) (t : ℚ) :
    (detectAnomalies dup hist t).countP
      (fun a => decide (a.type = AnomalyType.ABNORMAL_TOTAL)) ≤ 1 := by
  unfold detectAnomalies
  rw [List.countP_append, List.countP_append]
  have hd : (dupDraft dup).countP
      (fun a => decide (a.type = AnomalyType.ABNORMAL_TOTAL)) = 0 := by
    cases dup <;> rfl
  rw [hd]
  have hstat_len : (statDraft hist t).length ≤ 1 := by
    unfold statDraft
    split
    · simp
    · split <;> simp
  by_cases hh : highThresholdFires hist t = true
  · have hs : statDraft hist t = [] := by
      by_contra hne
      have hf := (statDraft_ne_iff hist t).mp hne
      rw [statFires_of_high hh] at hf
      cases hf
    have hhc : (highDraft hist t).countP
        (fun a => decide (a.type = AnomalyType.ABNORMAL_TOTAL)) ≤ 1 := by
      unfold highDraft
      split <;> simp
    rw [hs]
    simpa using hhc
  · have hhc : (highDraft hist t).countP
        (fun a => decide (a.type = AnomalyType.ABNORMAL_TOTAL)) = 0 := by
      unfold highDraft
      rw [if_neg hh]
      rfl
    have hsc : (statDraft hist t).countP
        (fun a => decide (a.type = AnomalyType.ABNORMAL_TOTAL)) ≤ 1 :=
      le_trans (List.countP_le_length _) hstat_len
    rw [hhc]
    simpa using hsc

/-- The executable outlier test versus the 3-sigma form with a real
square root: for nonnegative deviation d and variance v,
9 * v <= d ^ 2 iff 3 * sqrt v <= d. -/
theorem statCond_iff_sqrt (v d : ℚ) (hv : 0 ≤ v) (hd : 0 ≤ d) :
    9 * v ≤ d ^ 2 ↔ 3 * Real.sqrt (v : ℝ) ≤ (d : ℝ) := by
  have h9 : Real.sqrt (9 : ℝ) = 3 := by
    rw [show (9 : ℝ) = 3 ^ 2 by norm_num, Real.sqrt_sq (by norm_num)]
  have hmul : 3 * Real.sqrt (v : ℝ) = Real.sqrt ((9 : ℝ) * (v : ℝ)) := by
    rw [Real.sqrt_mul (by norm_num), h9]
  rw [hmul, Real.sqrt_le_iff]
  constructor
  · intro hle
    refine ⟨by exact_mod_cast hd, by exact_mod_cast hle⟩
  · rintro ⟨_, hle⟩
    exact_mod_cast hle

/-- Claim C3: with at least 5 history entries, the statistical outlier
detector emits an ABNORMAL_TOTAL/HIGH anomaly iff the population
standard deviation of the history is strictly positive, the absolute
deviation of the new total from the average is at least 3 standard
deviations, and the high-threshold detector did not fire for this
invoice; the reason text says "higher" when new_total > average and
"lower" otherwise; and at most one ABNORMAL_TOTAL draft is ever
produced for a newly ingested invoice. -/
theorem C3_statistical_outlier (hist : List ℚ) (t : ℚ) (h5 : 5 ≤ hist.length) :
    (statDraft hist t ≠ [] ↔
      (0 < Real.sqrt ((popVariance hist (hist.sum / (hist.length : ℚ)) : ℚ) : ℝ) ∧
        3 * Real.sqrt ((popVariance hist (hist.sum / (hist.length : ℚ)) : ℚ) : ℝ) ≤
          |(t : ℝ) - ((hist.sum / (hist.length : ℚ) : ℚ) : ℝ)| ∧
        highThresholdFires hist t = false)) ∧
    (∀ a ∈ statDraft hist t,
      a.type = AnomalyType.ABNORMAL_TOTAL ∧ a.severity = AnomalySeverity.HIGH ∧
        a.reasonText = statReason
          (if t > hist.sum / (hist.length : ℚ) then "higher" else "lower")) ∧
    (∀ (dup : Bool) (hist' : List ℚ) (t' : ℚ),
      (detectAnomalies dup hist' t').countP
        (fun a => decide (a.type = AnomalyType.ABNORMAL_TOTAL)) ≤ 1) := by
  have hne : hist ≠ [] := by
    intro h
    rw [h] at h5
    simp at h5
  have hcast : ((|t - hist.sum / (hist.length : ℚ)| : ℚ) : ℝ) =
      |(t : ℝ) - ((hist.sum / (hist.length : ℚ) : ℚ) : ℝ)| := by
    push_cast
    rfl
  refine ⟨?_, ?_, fun dup hist' t' => abnormal_count_le_one dup hist' t'⟩
  · rw [statDraft_ne_iff, statFires_iff hne h5]
    constructor
    · rintro ⟨hv, hle, hh⟩
      refine ⟨Real.sqrt_pos.mpr (by exact_mod_cast hv), ?_, hh⟩
      have hs := (statCond_iff_sqrt _ _ (le_of_lt hv) (abs_nonneg _)).mp hle
      rwa [hcast] at hs
    · rintro ⟨hs, hle, hh⟩
      have hv : (0 : ℚ) < popVariance hist (hist.sum / (hist.length : ℚ)) := by
        exact_mod_cast Real.sqrt_pos.mp hs
      refine ⟨hv, ?_, hh⟩
      apply (statCond_iff_sqrt _ _ (le_of_lt hv) (abs_nonneg _)).mpr
      rwa [hcast]
  · intro a ha
    have h := statDraft_mem hne ha
    exact ⟨h.1, h.2.1, h.2.2.2⟩

/-- Witness for C3 at the concrete history [1, 1, 1, 1, 2] and new total
0: the statistical detector fires (variance 4/25, deviation 6/5 equal to
exactly 3 standard deviations), and the draft count bound holds. -/
theorem C3_statistical_outlier_witness :
    statDraft [1, 1, 1, 1, 2] 0 ≠ [] ∧
    (detectAnomalies true [1, 1, 1, 1, 2] 0).countP
      (fun a => decide (a.type = AnomalyType.ABNORMAL_TOTAL)) ≤ 1 := by
  have h := C3_statistical_outlier [1, 1, 1, 1, 2] 0 (by decide)
  refine ⟨?_, h.2.2 true [1, 1, 1, 1, 2] 0⟩
  apply h.1.mpr
  have hv : ((popVariance [1, 1, 1, 1, 2]
      (([1, 1, 1, 1, 2] : List ℚ).sum / ((([1, 1, 1, 1, 2] : List ℚ).length : ℕ) : ℚ)) : ℚ) : ℝ) =
      4 / 25 := by
    norm_num [popVariance, List.sum_cons, List.sum_nil]
  refine ⟨?_, ?_, ?_⟩
  · rw [hv]
    positivity
  · rw [hv, show (4 / 25 : ℝ) = (2 / 5) ^ 2 by norm_num, Real.sqrt_sq (by norm_num)]
    norm_num [List.sum_cons, List.sum_nil]
    exact le_abs_self _
  · norm_num [highThresholdFires, averageTotal, List.sum_cons, List.sum_nil]
    rw [if_neg (List.cons_ne_nil 1 [1, 1, 1, 2])]
    simp only [decide_eq_false_iff_not]
    norm_num

/-- Claim C4: with non-empty history the high-threshold detector emits
an ABNORMAL_TOTAL/HIGH draft iff new_total >= (sum(history) /
count(history)) * 1.5 in exact arithmetic; with empty history it emits
nothing, and with empty history and no duplicate match the whole run
yields zero anomalies. -/
theorem C4_high_threshold (hist : List ℚ) (t : ℚ) :
    (hist ≠ [] →
      (highDraft hist t ≠ [] ↔ t ≥ (hist.sum / (hist.length : ℚ)) * (3 / 2 : ℚ))) ∧
    highDraft [] t = [] ∧
    detectAnomalies false [] t = [] ∧
    (∀ a ∈ highDraft hist t,
      a.type = AnomalyType.ABNORMAL_TOTAL ∧ a.severity = AnomalySeverity.HIGH) := by
  refine ⟨?_, rfl, rfl, ?_⟩
  · intro hne
    rw [highDraft_ne_iff, highFires_iff hne]
  · intro a ha
    exact ⟨(highDraft_mem ha).1, (highDraft_mem ha).2.1⟩

/-- Witness for C4 at the spec's example history [100, 105, 95, 110] and
new total 300: the high-threshold detector fires since 300 >= 102.5 * 1.5. -/
theorem C4_high_threshold_witness :
    ([100, 105, 95, 110] : List ℚ) ≠ [] ∧ highDraft [100, 105, 95, 110] 300 ≠ [] := by
  have h := C4_high_threshold [100, 105, 95, 110] 300
  refine ⟨by simp, (h.1 (by simp)).mpr ?_⟩
  norm_num [List.sum_cons, List.sum_nil]

/-! ## Lemmas on ingestion -/

theorem create_invoice_ok {db : DB} {p : InvoiceCreate} {e : InvoiceExtractionResult}
    {now : ℕ} {r : CreateResult} (h : create_invoice db p e now = .ok r) :
    ∃ vendor d t,
      resolveVendor db p.user_id p.vendor_id (pyOrStr p.vendor_name e.vendor_name) =
        .ok vendor ∧
      vendor.user_id = p.user_id ∧
      pyOr p.invoice_date e.invoice_date = some d ∧
      pyOr p.total_amount e.total_amount = some t ∧
      r = buildResult db p vendor d t now := by
  unfold create_invoice at h
  split at h
  · cases h
  · rename_i vendor hres
    split at h
    · cases h
    · split at h
      · cases h
      · rename_i hvu
        split at h
        · cases h
        · rename_i d hd
          split at h
          · cases h
          · rename_i t ht
            cases h
            exact ⟨vendor, d, t, hres, not_ne_iff.mp hvu, hd, ht, rfl⟩

theorem buildResult_invoice (db : DB) (p : InvoiceCreate) (vendor : Vendor)
    (d : ℤ) (t : ℚ) (now : ℕ) :
    (buildResult db p vendor d t now).invoice =
      { id := db.nextId, user_id := p.user_id, vendor_id := vendor.id, invoice_date := d,
        total_amount := t, currency := p.currency,
        source_file_url := p.source_file_url, created_at := now } := rfl

theorem buildResult_anomalies (db : DB) (p : InvoiceCreate) (vendor : Vendor)
    (d : ℤ) (t : ℚ) (now : ℕ) :
    (buildResult db p vendor d t now).anomalies =
      persistAnomalies db.nextId now (db.nextId + 1)
        (detectAnomalies (duplicateExists db.invoices vendor.id d t)
          (vendorHistoryTotals db.invoices vendor.id) t) := rfl

theorem buildResult_db_invoices (db : DB) (p : InvoiceCreate) (vendor : Vendor)
    (d : ℤ) (t : ℚ) (now : ℕ) :
    (buildResult db p vendor d t now).db.invoices =
      db.invoices ++ [(buildResult db p vendor d t now).invoice] := rfl

theorem mem_persistAnomalies {invId now : ℕ} :
    ∀ {nid : ℕ} {ds : List AnomalyDraft} {a : Anomaly},
      a ∈ persistAnomalies invId now nid ds →
      ∃ dr ∈ ds, a.type = dr.type ∧ a.severity = dr.severity ∧ a.status = dr.status ∧
        a.reason_text = dr.reasonText ∧ a.invoice_id = invId := by
  intro nid ds
  induction ds generalizing nid with
  | nil => intro a ha; cases ha
  | cons dr ds ih =>
    intro a ha
    rw [persistAnomalies] at ha
    rcases List.mem_cons.mp ha with rfl | hmem
    · exact ⟨dr, List.mem_cons_self _ _, rfl, rfl, rfl, rfl, rfl⟩
    · rcases ih hmem with ⟨dr', hdr', hprops⟩
      exact ⟨dr', List.mem_cons_of_mem _ hdr', hprops⟩

theorem persistAnomalies_exists {invId now : ℕ} :
    ∀ {nid : ℕ} {ds : List AnomalyDraft} {dr : AnomalyDraft},
      dr ∈ ds →
      ∃ a ∈ persistAnomalies invId now nid ds,
        a.type = dr.type ∧ a.severity = dr.severity := by
  intro nid ds
  induction ds generalizing nid with
  | nil => intro dr hdr; cases hdr
  | cons d0 ds ih =>
    intro dr hdr
    rcases List.mem_cons.mp hdr with rfl | hmem
    · exact ⟨_, List.mem_cons_self _ _, rfl, rfl⟩
    · rcases ih hmem with ⟨a, ha, hp⟩
      exact ⟨a, List.mem_cons_of_mem _ ha, hp⟩

/-- The duplicate anomaly of a successful ingestion exists iff some
already-persisted invoice matches on (vendor, date, total). -/
theorem create_dup_iff {db : DB} {p : InvoiceCreate} {e : InvoiceExtractionResult}
    {now : ℕ} {r : CreateResult} (h : create_invoice db p e now = .ok r) :
    (∃ a ∈ r.anomalies,
        a.type = AnomalyType.DUPLICATE ∧ a.severity = AnomalySeverity.MEDIUM) ↔
      ∃ inv ∈ db.invoices, inv.vendor_id = r.invoice.vendor_id ∧
        inv.invoice_date = r.invoice.invoice_date ∧
        inv.total_amount = r.invoice.total_amount := by
  obtain ⟨vendor, d, t, _, _, _, _, rfl⟩ := create_invoice_ok h
  rw [buildResult_anomalies, buildResult_invoice]
  constructor
  · rintro ⟨a, ha, htype, _⟩
    rcases mem_persistAnomalies ha with ⟨dr, hdr, hat, _⟩
    unfold detectAnomalies at hdr
    rcases List.mem_append.mp hdr with hdh | hstat
    · rcases List.mem_append.mp hdh with hdup | hhigh
      · have hne : dupDraft (duplicateExists db.invoices vendor.id d t) ≠ [] := by
          intro hnil
          rw [hnil] at hdup
          cases hdup
        have hdupT := (dupDraft_ne_iff _).mp hne
        unfold duplicateExists at hdupT
        rcases List.any_eq_true.mp hdupT with ⟨inv, hinv, hpred⟩
        simp only [Bool.and_eq_true, decide_eq_true_eq] at hpred
        exact ⟨inv, hinv, hpred.1.1, hpred.1.2, hpred.2⟩
      · rw [hat, (highDraft_mem hhigh).1] at htype
        cases htype
    · by_cases hhist : vendorHistoryTotals db.invoices vendor.id = []
      · rw [hhist] at hstat
        cases hstat
      · rw [hat, (statDraft_mem hhist hstat).1] at htype
        cases htype
  · rintro ⟨inv, hinv, hv, hdt, htt⟩
    have hdup : duplicateExists db.invoices vendor.id d t = true := by
      unfold duplicateExists
      rw [List.any_eq_true]
      refine ⟨inv, hinv, ?_⟩
      simp only [Bool.and_eq_true, decide_eq_true_eq]
      exact ⟨⟨hv, hdt⟩, htt⟩
    have hne : dupDraft (duplicateExists db.invoices vendor.id d t) ≠ [] :=
      (dupDraft_ne_iff _).mpr hdup
    obtain ⟨dr, hdr⟩ := List.exists_mem_of_ne_nil _ hne
    have hfields := dupDraft_mem hdr
    have hdrdet : dr ∈ detectAnomalies (duplicateExists db.invoices vendor.id d t)
        (vendorHistoryTotals db.invoices vendor.id) t := by
      unfold detectAnomalies
      exact List.mem_append_left _ (List.mem_append_left _ hdr)
    rcases persistAnomalies_exists hdrdet with ⟨a, ha, hat, has⟩
    exact ⟨a, ha, hat.trans hfields.1, has.trans hfields.2.1⟩

theorem resolveVendor_some (db : DB) (u vid : ℕ) (c : Option String) :
    resolveVendor db u (some vid) c =
      (match db.vendors.find? (fun v => decide (v.id = vid)) with
        | none => .error .notFound
        | some v => .ok v) := rfl

theorem buildResult_congr {db : DB} {vendor : Vendor} {d : ℤ} {t : ℚ} {now : ℕ}
    {p₁ p₂ : InvoiceCreate} (hu : p₂.user_id = p₁.user_id)
    (hc : p₂.currency = p₁.currency) (hs : p₂.source_file_url = p₁.source_file_url) :
    buildResult db p₂ vendor d t now = buildResult db p₁ vendor d t now := by
  unfold buildResult
  rw [hu, hc, hs]

/-- Claim C2: a DUPLICATE/MEDIUM anomaly is emitted iff some
already-persisted invoice for the same vendor has the same invoice date
and the same total amount (currency not compared), evaluated against the
state before the new invoice is committed; hence with no prior match the
first ingestion carries no duplicate anomaly and a second ingestion of
the same vendor/date/total does. -/
theorem C2_duplicate_iff (db : DB) (p : InvoiceCreate) (e : InvoiceExtractionResult)
    (now : ℕ) (r : CreateResult) (h : create_invoice db p e now = .ok r) :
    ((∃ a ∈ r.anomalies,
        a.type = AnomalyType.DUPLICATE ∧ a.severity = AnomalySeverity.MEDIUM) ↔
      ∃ inv ∈ db.invoices, inv.vendor_id = r.invoice.vendor_id ∧
        inv.invoice_date = r.invoice.invoice_date ∧
        inv.total_amount = r.invoice.total_amount) ∧
    ((¬∃ inv ∈ db.invoices, inv.vendor_id = r.invoice.vendor_id ∧
        inv.invoice_date = r.invoice.invoice_date ∧
        inv.total_amount = r.invoice.total_amount) →
      (¬∃ a ∈ r.anomalies,
        a.type = AnomalyType.DUPLICATE ∧ a.severity = AnomalySeverity.MEDIUM) ∧
      ∀ (p₂ : InvoiceCreate) (e₂ : InvoiceExtractionResult) (now₂ : ℕ) (r₂ : CreateResult),
        create_invoice r.db p₂ e₂ now₂ = .ok r₂ →
        r₂.invoice.vendor_id = r.invoice.vendor_id →
        r₂.invoice.invoice_date = r.invoice.invoice_date →
        r₂.invoice.total_amount = r.invoice.total_amount →
        ∃ a ∈ r₂.anomalies,
          a.type = AnomalyType.DUPLICATE ∧ a.severity = AnomalySeverity.MEDIUM) := by
  refine ⟨create_dup_iff h, ?_⟩
  intro hnone
  constructor
  · intro hdup
    exact hnone ((create_dup_iff h).mp hdup)
  · intro p₂ e₂ now₂ r₂ h₂ hv hd ht
    apply (create_dup_iff h₂).mpr
    obtain ⟨vendor, d, t, _, _, _, _, rfl⟩ := create_invoice_ok h
    refine ⟨(buildResult db p vendor d t now).invoice, ?_, hv.symm, hd.symm, ht.symm⟩
    rw [buildResult_db_invoices]
    exact List.mem_append_right _ (List.mem_singleton.mpr rfl)

/-- Witness for C2: against the empty store, ingesting (vendor 1, date
100, total 150) twice produces no duplicate anomaly on the first call
and a DUPLICATE/MEDIUM anomaly on the second. -/
theorem C2_duplicate_iff_witness :
    (¬∃ a ∈ (buildResult scDb scPayload scVendor 100 150 3).anomalies,
        a.type = AnomalyType.DUPLICATE ∧ a.severity = AnomalySeverity.MEDIUM) ∧
    ∃ a ∈ (buildResult (buildResult scDb scPayload scVendor 100 150 3).db
        scPayload scVendor 100 150 4).anomalies,
      a.type = AnomalyType.DUPLICATE ∧ a.severity = AnomalySeverity.MEDIUM := by
  have h₁ : create_invoice scDb scPayload scExtEmpty 3 =
      .ok (buildResult scDb scPayload scVendor 100 150 3) := rfl
  have h := C2_duplicate_iff scDb scPayload scExtEmpty 3 _ h₁
  have hnone : ¬∃ inv ∈ scDb.invoices,
      inv.vendor_id = (buildResult scDb scPayload scVendor 100 150 3).invoice.vendor_id ∧
      inv.invoice_date = (buildResult scDb scPayload scVendor 100 150 3).invoice.invoice_date ∧
      inv.total_amount = (buildResult scDb scPayload scVendor 100 150 3).invoice.total_amount := by
    simp [scDb]
  obtain ⟨hno, hsecond⟩ := h.2 hnone
  refine ⟨hno, ?_⟩
  have h₂ : create_invoice (buildResult scDb scPayload scVendor 100 150 3).db
      scPayload scExtEmpty 4 =
      .ok (buildResult (buildResult scDb scPayload scVendor 100 150 3).db
        scPayload scVendor 100 150 4) := rfl
  exact hsecond scPayload scExtEmpty 4 _ h₂ rfl rfl rfl

/-- Claim C9: an explicit vendor identifier is looked up directly and
fails NotFound when absent, with no fallback to candidate-name matching
(the outcome does not depend on any candidate name); with neither an
identifier nor a truthy candidate name the call fails InvalidInput. -/
theorem C9_vendor_resolution (db : DB) (p : InvoiceCreate) (e : InvoiceExtractionResult)
    (now : ℕ) :
    (∀ vid, p.vendor_id = some vid →
      (∀ v ∈ db.vendors, v.id ≠ vid) →
      create_invoice db p e now = .error .notFound) ∧
    (p.vendor_id = none →
      (p.vendor_name = none ∨ p.vendor_name = some "") →
      (e.vendor_name = none ∨ e.vendor_name = some "") →
      create_invoice db p e now = .error .invalidInput) ∧
    (∀ (p₂ : InvoiceCreate) (e₂ : InvoiceExtractionResult) (vid : ℕ),
      p.vendor_id = some vid → p₂.vendor_id = p.vendor_id → p₂.user_id = p.user_id →
      p₂.invoice_date = p.invoice_date → p₂.total_amount = p.total_amount →
      p₂.currency = p.currency → p₂.source_file_url = p.source_file_url →
      e₂.invoice_date = e.invoice_date → e₂.total_amount = e.total_amount →
      create_invoice db p₂ e₂ now = create_invoice db p e now) := by
  refine ⟨?_, ?_, ?_⟩
  · intro vid hvid hnone
    have hfind : db.vendors.find? (fun v => decide (v.id = vid)) = none := by
      rw [List.find?_eq_none]
      intro v hv
      simp [hnone v hv]
    unfold create_invoice resolveVendor
    simp only [hvid, hfind]
  · intro hvid hn1 hn2
    have hcand : pyOrStr p.vendor_name e.vendor_name = none ∨
        pyOrStr p.vendor_name e.vendor_name = some "" := by
      rcases hn1 with h1 | h1 <;> rcases hn2 with h2 | h2 <;> simp [pyOrStr, h1, h2]
    unfold create_invoice resolveVendor
    rcases hcand with hc | hc <;> simp [hvid, hc]
  · intro p₂ e₂ vid hvid h1 h2 h3 h4 h5 h6 h7 h8
    unfold create_invoice
    rw [h1, h2, h3, h4, h7, h8, hvid]
    simp only [resolveVendor_some, buildResult_congr h2 h5 h6]

/-- Witness for C9: with an absent explicit vendor id 99 the call fails
NotFound even though the candidate name "ACME Corp" would match; with no
vendor information at all (including an empty extracted name) the call
fails InvalidInput. -/
theorem C9_vendor_resolution_witness :
    create_invoice scDb scPayloadBadVendor scExtEmpty 5 = .error .notFound ∧
    create_invoice scDb scPayloadNoVendor scExtEmptyName 5 = .error .invalidInput := by
  constructor
  · exact (C9_vendor_resolution scDb scPayloadBadVendor scExtEmpty 5).1 99 rfl (by decide)
  · exact (C9_vendor_resolution scDb scPayloadNoVendor scExtEmptyName 5).2.1 rfl
      (Or.inl rfl) (Or.inr rfl)

/-- Claim C1 (code-bug evidence): a merged-but-missing invoice date or
total amount fails with 400 InvalidInput and persists nothing, but a
non-positive extractor-provided fallback total is never re-validated:
the call succeeds and persists an invoice with total -5. -/
theorem C1_validation_gap :
    create_invoice scDb scPayloadNoDate scExtEmpty 5 = .error .invalidInput ∧
    create_invoice scDb scPayloadNoTotal scExtEmpty 5 = .error .invalidInput ∧
    create_invoice scDb scPayloadNoTotal scExtNegTotal 5 =
      .ok (buildResult scDb scPayloadNoTotal scVendor 100 (-5) 5) ∧
    (buildResult scDb scPayloadNoTotal scVendor 100 (-5) 5).invoice.total_amount = -5 ∧
    ¬(0 < (buildResult scDb scPayloadNoTotal scVendor 100 (-5) 5).invoice.total_amount) ∧
    (buildResult scDb scPayloadNoTotal scVendor 100 (-5) 5).invoice ∈
      (buildResult scDb scPayloadNoTotal scVendor 100 (-5) 5).db.invoices := by
  refine ⟨rfl, rfl, rfl, rfl, ?_, ?_⟩
  · show ¬((0 : ℚ) < -5)
    norm_num
  · rw [buildResult_db_invoices]
    exact List.mem_append_right _ (List.mem_singleton.mpr rfl)

/-! ## Lemmas on the review state machine -/

/-- Claim C6: the review operation fails NotFound exactly when no anomaly
with the requested id exists whose invoice row (joined on invoice_id)
belongs to the requesting user; ownership is the join condition, the
anomaly row itself carrying no user field; an error result carries no
state change. -/
theorem C6_review_ownership (db : DB) (anomalyId userId : ℕ) (payload : AnomalyUpdate)
    (now : ℕ) :
    update_anomaly_status db anomalyId userId payload now = .error .notFound ↔
      ¬∃ a ∈ db.anomalies, a.id = anomalyId ∧
        ∃ i ∈ db.invoices, i.id = a.invoice_id ∧ i.user_id = userId := by
  unfold update_anomaly_status
  cases hf : findOwnedAnomaly db anomalyId userId with
  | none =>
    refine ⟨fun _ => ?_, fun _ => rfl⟩
    unfold findOwnedAnomaly at hf
    rw [List.find?_eq_none] at hf
    rintro ⟨a, ha, haid, i, hi, hiid, huid⟩
    apply hf a ha
    simp only [Bool.and_eq_true, decide_eq_true_eq, List.any_eq_true]
    exact ⟨haid, i, hi, by simp [hiid, huid]⟩
  | some a =>
    refine ⟨fun h => ?_, fun hno => ?_⟩
    · cases h
    · exfalso
      apply hno
      have hm := List.mem_of_find?_eq_some hf
      have hp := List.find?_some hf
      simp only [Bool.and_eq_true, decide_eq_true_eq, List.any_eq_true] at hp
      rcases hp with ⟨haid, i, hi, hpred⟩
      exact ⟨a, hm, haid, i, hi, hpred.1, hpred.2⟩

/-- Witness for C6: user 8 reviewing anomaly 30 (owned, via invoice 20,
by user 7) gets NotFound; user 7 does not. -/
theorem C6_review_ownership_witness :
    update_anomaly_status scDb2 30 8 scUpdNoNote 9 = .error .notFound ∧
    update_anomaly_status scDb2 30 7 scUpdNoNote 9 ≠ .error .notFound := by
  constructor
  · exact (C6_review_ownership scDb2 30 8 scUpdNoNote 9).mpr (by decide)
  · intro h
    exact absurd ((C6_review_ownership scDb2 30 7 scUpdNoNote 9).mp h) (by decide)

/-- Claim C7 counterexample: re-marking anomaly 31 (already VALID,
note absent) as VALID with the note omitted succeeds, but no UPDATE is
emitted, so the row and its updated_at (6) are unchanged: the claim's
"the updated-at timestamp is refreshed" fails on this successful call. -/
theorem C7_noop_review_counterexample :
    update_anomaly_status scDb2 31 7 scUpdNoNote 9 = .ok (scDb2, scAnomalyValid) ∧
    scAnomalyValid.updated_at = 6 ∧ (6 : ℕ) ≠ 9 :=
  ⟨rfl, rfl, by decide⟩

/-- Claim C7 (amended): a successful review sets the status, overwrites
the note only when the note field was present in the request (an
explicit null clears it, omission preserves it), and changes no other
field of the anomaly nor any other table; updated_at is refreshed
exactly when the review produced a net change of status or note, and a
no-op review leaves the anomaly row entirely unchanged. -/
theorem C7_review_update (db : DB) (anomalyId userId : ℕ) (payload : AnomalyUpdate)
    (now : ℕ) (db' : DB) (a' : Anomaly)
    (h : update_anomaly_status db anomalyId userId payload now = .ok (db', a')) :
    ∃ a ∈ db.anomalies, a.id = anomalyId ∧
      a'.status = payload.status ∧
      a'.note = (match payload.note with | some n => n | none => a.note) ∧
      ((payload.status ≠ a.status ∨
          (match payload.note with | some n => n | none => a.note) ≠ a.note) →
        a'.updated_at = now) ∧
      ((payload.status = a.status ∧
          (match payload.note with | some n => n | none => a.note) = a.note) →
        a' = a) ∧
      a'.id = a.id ∧ a'.invoice_id = a.invoice_id ∧ a'.type = a.type ∧
      a'.severity = a.severity ∧ a'.reason_text = a.reason_text ∧
      a'.created_at = a.created_at ∧
      db'.users = db.users ∧ db'.vendors = db.vendors ∧ db'.invoices = db.invoices ∧
      db'.anomalies = db.anomalies.map (fun x => if x.id = a.id then a' else x) := by
  unfold update_anomaly_status at h
  cases hf : findOwnedAnomaly db anomalyId userId with
  | none =>
    rw [hf] at h
    cases h
  | some a =>
    rw [hf] at h
    cases h
    have hm := List.mem_of_find?_eq_some hf
    have hp := List.find?_some hf
    simp only [Bool.and_eq_true, decide_eq_true_eq] at hp
    refine ⟨a, hm, hp.1, ?_⟩
    by_cases hch : payload.status ≠ a.status ∨
        (match payload.note with | some n => n | none => a.note) ≠ a.note
    · rw [if_pos hch]
      refine ⟨rfl, rfl, fun _ => rfl, fun hno => ?_, rfl, rfl, rfl, rfl, rfl, rfl,
        rfl, rfl, rfl, rfl⟩
      exact absurd hch (by push_neg; exact hno)
    · rw [if_neg hch]
      push_neg at hch
      exact ⟨hch.1.symm, hch.2.symm, fun habs => absurd habs (by push_neg; exact hch),
        fun _ => rfl, rfl, rfl, rfl, rfl, rfl, rfl, rfl, rfl, rfl, rfl⟩

/-- Witness for C7 (amended): reviewing anomaly 30 (UNREVIEWED, stored
note "old note") as VALID with the note field omitted keeps the note,
sets the status, and refreshes updated_at since the status changed;
reviewing with an explicit null note clears the note. -/
theorem C7_review_update_witness :
    ∃ db₁ a₁, update_anomaly_status scDb2 30 7 scUpdNoNote 9 = .ok (db₁, a₁) ∧
      a₁.status = AnomalyStatus.VALID ∧ a₁.updated_at = 9 ∧
      a₁.note = some ("old note") ∧ a₁.created_at = 5 ∧
      ∃ db₂ a₂, update_anomaly_status scDb2 30 7 scUpdClear 9 = .ok (db₂, a₂) ∧
        a₂.note = none := by
  obtain ⟨a, hm, haid, hst, hnote, hupd, _⟩ :=
    C7_review_update scDb2 30 7 scUpdNoNote 9 _ _ rfl
  have ha : a = scAnomaly := by
    simp only [scDb2, List.mem_cons, List.not_mem_nil, or_false] at hm
    rcases hm with rfl | rfl | rfl
    · rfl
    · exact absurd haid (by decide)
    · exact absurd haid (by decide)
  refine ⟨_, _, rfl, hst, ?_, ?_, by decide, _, _, rfl, by decide⟩
  · apply hupd
    rw [ha]
    exact Or.inl (by decide)
  · rw [hnote, ha]
    rfl

/-! ## Lemmas on the flagged-invoice listing -/

theorem list_flagged_mem {db : DB} {u : ℕ} {st : Option AnomalyStatus} {lim : ℕ}
    {pr : Invoice × List Anomaly} (h : pr ∈ list_flagged_invoices db u st lim) :
    pr.1.user_id = u ∧
    (∃ a ∈ db.anomalies, a.invoice_id = pr.1.id ∧ a.status = st.getD .UNREVIEWED) ∧
    pr.2 = (db.anomalies.filter
      (fun a => decide (a.invoice_id = pr.1.id))).insertionSort anomalyLe := by
  unfold list_flagged_invoices at h
  rcases List.mem_map.mp h with ⟨i, hi, rfl⟩
  have hi2 : i ∈ (db.invoices.filter (fun i => decide (i.user_id = u) &&
      db.anomalies.any (fun a => decide (a.invoice_id = i.id) &&
        decide (a.status = st.getD .UNREVIEWED)))).insertionSort invoiceOrder :=
    (List.take_sublist _ _).subset hi
  have hi3 := (List.perm_insertionSort invoiceOrder _).subset hi2
  have hmem := List.mem_filter.mp hi3
  have hpred := hmem.2
  simp only [Bool.and_eq_true, decide_eq_true_eq, List.any_eq_true] at hpred
  exact ⟨hpred.1, hpred.2, rfl⟩

/-- Claim C10: with no status filter the listing behaves exactly as if
filtered by UNREVIEWED; every returned invoice carries an UNREVIEWED
anomaly in the store. -/
theorem C10_default_status (db : DB) (u : ℕ) (lim : ℕ) :
    list_flagged_invoices db u none lim =
      list_flagged_invoices db u (some .UNREVIEWED) lim ∧
    ∀ pr ∈ list_flagged_invoices db u none lim,
      ∃ a ∈ db.anomalies, a.invoice_id = pr.1.id ∧ a.status = .UNREVIEWED := by
  refine ⟨rfl, ?_⟩
  intro pr hpr
  exact (list_flagged_mem hpr).2.1

/-- Witness for C10 at the concrete listing scenario: the default listing
is non-empty and equals the UNREVIEWED-filtered listing. -/
theorem C10_default_status_witness :
    list_flagged_invoices scDb2 7 none 50 ≠ [] ∧
    list_flagged_invoices scDb2 7 none 50 =
      list_flagged_invoices scDb2 7 (some .UNREVIEWED) 50 :=
  ⟨by decide, (C10_default_status scDb2 7 50).1⟩

end CostGuard
